import Mathlib

set_option linter.unusedVariables false

/-!
Verification development for the VTEX image alt-text bulk updater
(src/main.py).  The Python source is shallowly embedded: pure helpers
become Lean functions, the HTTP network is an explicit oracle handed to
each function, and the orchestrator loop is a fuel-bounded recursion
that emits a trace of events.  Machine details that the claims depend
on are modelled faithfully; in particular the library truthiness of a
`requests.Response` object (`bool(response)` is `status_code < 400`) is
embedded explicitly, because several branches of the source test
responses by truthiness.
-/

/-- A JSON-ish Python value, as returned by `response.json()` and stored
in image records.  Enough structure for the fields the program reads. -/
inductive PyVal where
  | null
  | bool (b : Bool)
  | int (n : Int)
  | str (s : String)
  | list (xs : List PyVal)
  | dict (kvs : List (String × PyVal))

/-- A Python dict with string keys, in insertion order (the shape of an
image record and of a SKU detail body). -/
def Dict := List (String × PyVal)

/-- `d.get(k)` : first binding of `k`, `None` when absent. -/
def dictGet : Dict → String → Option PyVal
  | [], _ => none
  | (k', v') :: rest, k => if k' = k then some v' else dictGet rest k

/-- `d.get(k, default)`. -/
def dictGetD (d : Dict) (k : String) (v : PyVal) : PyVal :=
  (dictGet d k).getD v

/-- `d[k] = v` : replace the first binding of `k` in place, or append a
new binding at the end (Python dicts keep insertion order). -/
def dictSet : Dict → String → PyVal → Dict
  | [], k, v => [(k, v)]
  | (k', v') :: rest, k, v =>
    if k' = k then (k, v) :: rest else (k', v') :: dictSet rest k v

/-- Python truthiness of a value (`None`, `False`, `0`, `""`, `[]`, `{}`
are falsy, everything else truthy). -/
def pyTruthy : PyVal → Bool
  | .null => false
  | .bool b => b
  | .int n => n != 0
  | .str s => s ≠ ""
  | .list xs => !xs.isEmpty
  | .dict kvs => !kvs.isEmpty

/-- Truthiness of an optional value; `dict.get` of a missing key gives
`None`, which is falsy. -/
def optTruthy : Option PyVal → Bool
  | none => false
  | some v => pyTruthy v

/-- Python `a or b` over optional values: `a` when truthy, else `b`. -/
def pyOr (a b : Option PyVal) : Option PyVal :=
  if optTruthy a then a else b

/-- Truthiness of a `requests.Response`: `Response.__bool__` is
`self.ok`, i.e. `status_code < 400`.  The source tests responses with
`if response ...` / `if not response`, so this is load-bearing. -/
def respOk (status : Nat) : Bool := status < 400

/-- Characters matched by the regex class `[\s]` (and stripped by
`str.strip()`) on an ASCII string. -/
def isPyWs (c : Char) : Bool :=
  c == ' ' || c == '\t' || c == '\n' || c == '\r' || c == '\x0b' || c == '\x0c'

/-- Per-character model of `unicodedata.normalize('NFKD', text)
.encode('ascii', 'ignore')`: ASCII characters pass through, accented
Latin letters decompose to their base letter (the combining mark is then
dropped by the ascii/ignore encode), and other non-ASCII characters are
dropped entirely.  The table covers the Latin letters exercised by this
catalog; any character outside it is dropped, like any non-decomposable
non-ASCII character in the source. -/
def asciiFold (c : Char) : Option Char :=
  if c.toNat < 128 then some c
  else match c with
    | 'á' | 'à' | 'â' | 'ã' | 'ä' | 'å' => some 'a'
    | 'Á' | 'À' | 'Â' | 'Ã' | 'Ä' | 'Å' => some 'A'
    | 'é' | 'è' | 'ê' | 'ë' => some 'e'
    | 'É' | 'È' | 'Ê' | 'Ë' => some 'E'
    | 'í' | 'ì' | 'î' | 'ï' => some 'i'
    | 'Í' | 'Ì' | 'Î' | 'Ï' => some 'I'
    | 'ó' | 'ò' | 'ô' | 'õ' | 'ö' => some 'o'
    | 'Ó' | 'Ò' | 'Ô' | 'Õ' | 'Ö' => some 'O'
    | 'ú' | 'ù' | 'û' | 'ü' => some 'u'
    | 'Ú' | 'Ù' | 'Û' | 'Ü' => some 'U'
    | 'ç' => some 'c'
    | 'Ç' => some 'C'
    | 'ñ' => some 'n'
    | 'Ñ' => some 'N'
    | _ => none

/-- `text.strip()` : drop leading and trailing whitespace. -/
def pyStripChars (l : List Char) : List Char :=
  ((l.dropWhile isPyWs).reverse.dropWhile isPyWs).reverse

/-- Worker for `re.sub(r'[\s]+', '-', text)`: the flag records whether
the previous character was part of a whitespace run (whose single `-`
was already emitted). -/
def collapseWsAux : Bool → List Char → List Char
  | _, [] => []
  | prevWs, c :: cs =>
    if isPyWs c then
      if prevWs then collapseWsAux true cs
      else '-' :: collapseWsAux true cs
    else c :: collapseWsAux false cs

/-- `re.sub(r'[\s]+', '-', text)` : each maximal whitespace run becomes
a single hyphen. -/
def collapseWs (l : List Char) : List Char := collapseWsAux false l

/-- Characters kept by `re.sub(r'[^a-z0-9\-]', '', text)`. -/
def isSlugChar (c : Char) : Bool :=
  ('a' ≤ c && c ≤ 'z') || ('0' ≤ c && c ≤ '9') || c == '-'

/-- main.py `slugify` (lines 85-93): empty-string guard, NFKD fold to
ASCII, lowercase, strip, whitespace runs to single hyphens, then delete
everything outside `[a-z0-9-]`. -/
def slugify (text : String) : String :=
  if text = "" then ""
  else
    let ascii := text.toList.filterMap asciiFold
    let lowered := ascii.map Char.toLower
    let stripped := pyStripChars lowered
    let hyphened := collapseWs stripped
    String.mk (hyphened.filter isSlugChar)

/-- The checkpoint record `{"processed_skus": [...], "last_page": n}`
held in `CheckpointManager.data`. -/
structure CheckpointData where
  processed_skus : List Nat
  last_page : Nat
deriving DecidableEq

/-- Durable-state condition of the checkpoint file when a run starts. -/
inductive FileState where
  | missing
  | unparsable
  | valid (d : CheckpointData)

/-- main.py `CheckpointManager.load` (lines 103-111): a missing file and
an unparsable file (the bare `except` around `json.load`) both yield the
fresh initial state; a parsable checkpoint is returned as is. -/
def CheckpointManager.load : FileState → CheckpointData
  | .missing => { processed_skus := [], last_page := 1 }
  | .unparsable => { processed_skus := [], last_page := 1 }
  | .valid d => d

/-- main.py `CheckpointManager.mark_processed` (lines 122-125): append
the id unless already present. -/
def CheckpointManager.mark_processed (cp : CheckpointData) (sku_id : Nat) :
    CheckpointData :=
  if cp.processed_skus.contains sku_id then cp
  else { cp with processed_skus := cp.processed_skus ++ [sku_id] }

/-- main.py `CheckpointManager.is_processed` (lines 127-129). -/
def CheckpointManager.is_processed (cp : CheckpointData) (sku_id : Nat) : Bool :=
  cp.processed_skus.contains sku_id

/-- main.py `CheckpointManager.update_page` (lines 131-133). -/
def CheckpointManager.update_page (cp : CheckpointData) (page : Nat) :
    CheckpointData :=
  { cp with last_page := page }

/-- A response as seen by `safe_request`: its status code and the
optional `Retry-After` header.  The header is modelled as the integer it
parses to; `int()` of a non-integer header would raise inside the `try`
and be caught (yielding `None`), a path outside the header shapes the
remote sends. -/
structure HResp where
  status : Nat
  retryAfter : Option Nat
deriving DecidableEq

/-- Outcome of one underlying `SESSION.request` attempt: the three
exception classes caught by `safe_request`, or a response. -/
inductive Attempt where
  | timeout
  | connError
  | otherError
  | resp (r : HResp)
deriving DecidableEq

/-- main.py `safe_request` (lines 160-189), for one fixed method, URL
and payload.  `oracle n` is the outcome of the n-th transmission of that
request.  The result is the list of application-level sleeps performed
(one per 429, of `Retry-After` seconds, default 60) paired with what the
function returns: `none` for every caught exception, otherwise the first
non-429 response.  Fuel bounds the recursion; exhausted fuel models the
Python recursion limit, whose `RecursionError` is caught by the same
`except` and also yields `None`. -/
def safe_request (oracle : Nat → Attempt) : Nat → List Nat × Option HResp
  | 0 => ([], none)
  | fuel + 1 =>
    match oracle 0 with
    | .timeout => ([], none)
    | .connError => ([], none)
    | .otherError => ([], none)
    | .resp r =>
      if r.status = 429 then
        let retry_after := r.retryAfter.getD 60
        let rest := safe_request (fun k => oracle (k + 1)) fuel
        (retry_after :: rest.1, rest.2)
      else ([], some r)

/-- main.py `update_image_alt` payload construction (lines 196-198):
copy the original image record, then overwrite `Label` and `Text`. -/
def update_payload (original : Dict) (newAlt : String) : Dict :=
  dictSet (dictSet original "Label" (.str newAlt)) "Text" (.str newAlt)

/-- `str.strip()` applied to a value of unknown runtime type: on a
string it trims whitespace; the source only applies it after a
truthiness guard, and a truthy non-string `Label` would raise an
`AttributeError` that the worker future swallows — the model totalizes
that unreachable-for-string-data case as the identity. -/
def pyStrip : PyVal → PyVal
  | .str s => .str (String.mk (pyStripChars s.toList))
  | v => v

/-- The comparison `current_label != new_alt` where `new_alt` is always
a Python `str`: equal only when the label is that exact string (Python
equality between a string and a non-string is `False`). -/
def labelDiffers (v : PyVal) (s : String) : Bool :=
  match v with
  | .str a => a ≠ s
  | _ => true

/-- Ghost record of the remote calls a unit performs (used to state the
zero-remote-calls and payload claims). -/
inductive RCall where
  | detail
  | files
  | update (payload : Dict)

/-- The network environment of one SKU: results of `safe_request` for
the detail GET, the image-list GET, and the per-image PUT (keyed by the
payload sent, which carries the file id).  `none` is the no-response
sentinel; PUT responses are reduced to their status code. -/
structure SkuNet where
  detail : Option (Nat × Dict)
  files : Option (Nat × List Dict)
  update : Dict → Option Nat

/-- Result of `update_image_alt`, with the payload it sent and whether
the response it observed had status 401 as ghost fields. -/
structure UIResult where
  ok : Bool
  saw401 : Bool
  payload : Dict

/-- main.py `update_image_alt` (lines 191-211).  Note the branches test
`response and status == 200` / `response and status == 401` where
`bool(response)` is `status < 400`: the 401 branch is therefore dead
code, and every non-200 outcome returns `False` through the final
`else`. -/
def update_image_alt (net : SkuNet) (original : Dict) (new_alt_text : String) :
    UIResult :=
  let payload := update_payload original new_alt_text
  match net.update payload with
  | some st =>
    if respOk st ∧ st = 200 then
      { ok := true, saw401 := false, payload := payload }
    else if respOk st ∧ st = 401 then
      { ok := false, saw401 := true, payload := payload }
    else
      { ok := false, saw401 := st == 401, payload := payload }
  | none => { ok := false, saw401 := false, payload := payload }

/-- One attempted image update: enumerate index (1-based), the original
image record, the alt text sent, and whether the update succeeded. -/
structure UpdAttempt where
  idx : Nat
  img : Dict
  alt : String
  ok : Bool

/-- The generator `img.get('Label') and img.get('Label').strip()` tested
by `all(...)`: truthy exactly when the label is present, truthy, and
still truthy after strip. -/
def labelHasAlt (img : Dict) : Bool :=
  match dictGet img "Label" with
  | none => false
  | some v => pyTruthy v && pyTruthy (pyStrip v)

/-- The `for index, img in enumerate(images, start=1)` loop of
`process_sku_images` (lines 241-249): returns the conjunction of all
update outcomes (`success`), whether any update observed a 401, the
list of update attempts, and the PUT calls issued (ghost). -/
def imagesLoop (net : SkuNet) (base_name : String) :
    Nat → List Dict → Bool × Bool × List UpdAttempt × List RCall
  | _, [] => (true, false, [], [])
  | index, img :: rest =>
    let current_label := dictGetD img "Label" (.str "")
    let new_alt := base_name ++ "_" ++ toString index
    if labelDiffers current_label new_alt then
      let u := update_image_alt net img new_alt
      let r := imagesLoop net base_name (index + 1) rest
      (u.ok && r.1, u.saw401 || r.2.1,
       ⟨index, img, new_alt, u.ok⟩ :: r.2.2.1, .update u.payload :: r.2.2.2)
    else
      imagesLoop net base_name (index + 1) rest

/-- Result of `process_sku_images`, with the fetched image list and the
attempted updates as ghost fields. -/
structure PIResult where
  ok : Bool
  saw401 : Bool
  fetched : Option (List Dict)
  updates : List UpdAttempt
  calls : List RCall

/-- main.py `process_sku_images` (lines 213-257).  `if not response`
covers both the `None` sentinel and any falsy (status ≥ 400) response,
which makes the `elif status == 404` arm dead code; on a 200 the
function succeeds immediately on an empty list or when all images
already carry truthy alt text, and otherwise runs the update loop over
`slugify(product_name)`. -/
def process_sku_images (net : SkuNet) (sku_id : Nat) (product_name : String) :
    PIResult :=
  match net.files with
  | none =>
    { ok := false, saw401 := false, fetched := none, updates := [],
      calls := [.files] }
  | some (st, images) =>
    if !(respOk st) then
      { ok := false, saw401 := false, fetched := none, updates := [],
        calls := [.files] }
    else if st = 200 then
      if images.isEmpty then
        { ok := true, saw401 := false, fetched := some images, updates := [],
          calls := [.files] }
      else if images.all labelHasAlt then
        { ok := true, saw401 := false, fetched := some images, updates := [],
          calls := [.files] }
      else
        let base_name := slugify product_name
        let r := imagesLoop net base_name 1 images
        { ok := r.1, saw401 := r.2.1, fetched := some images,
          updates := r.2.2.1, calls := .files :: r.2.2.2 }
    else if st = 404 then
      { ok := true, saw401 := false, fetched := none, updates := [],
        calls := [.files] }
    else
      { ok := false, saw401 := false, fetched := none, updates := [],
        calls := [.files] }

/-- The name chain of `get_sku_details` (line 267):
`data.get('ProductName') or data.get('NameComplete') or data.get('Name')`. -/
def chosen_name (data : Dict) : Option PyVal :=
  pyOr (pyOr (dictGet data "ProductName") (dictGet data "NameComplete"))
    (dictGet data "Name")

/-- main.py `get_sku_details` (lines 259-271): on a truthy 200 response
return the name chain and `RefId`, otherwise `(None, None)`. -/
def get_sku_details (net : SkuNet) : Option PyVal × Option PyVal :=
  match net.detail with
  | some (st, body) =>
    if respOk st ∧ st = 200 then (chosen_name body, dictGet body "RefId")
    else (none, none)
  | none => (none, none)

/-- Result of `process_single_sku`: its return value, whether it called
`mark_processed`, whether any of its updates observed a 401, the remote
calls it issued (ghost), and the checkpoint it leaves behind. -/
structure PSResult where
  ok : Bool
  marked : Bool
  saw401 : Bool
  calls : List RCall
  cp : CheckpointData

/-- main.py `process_single_sku` (lines 273-291): checkpoint skip, then
detail fetch; with a truthy product name run `process_sku_images` and
mark the SKU processed exactly on success; without one, log and return
success.  A truthy non-string name would raise inside `slugify` and be
swallowed by the worker future (neither marked nor reported), which the
model folds into the no-name skip. -/
def process_single_sku (net : SkuNet) (sku_id : Nat) (checkpoint : CheckpointData) :
    PSResult :=
  if CheckpointManager.is_processed checkpoint sku_id then
    { ok := true, marked := false, saw401 := false, calls := [], cp := checkpoint }
  else
    let d := get_sku_details net
    match d.1 with
    | some (.str s) =>
      if pyTruthy (.str s) then
        let r := process_sku_images net sku_id s
        if r.ok then
          { ok := true, marked := true, saw401 := r.saw401,
            calls := .detail :: r.calls,
            cp := CheckpointManager.mark_processed checkpoint sku_id }
        else
          { ok := false, marked := false, saw401 := r.saw401,
            calls := .detail :: r.calls, cp := checkpoint }
      else
        { ok := true, marked := false, saw401 := false, calls := [.detail],
          cp := checkpoint }
    | _ =>
      { ok := true, marked := false, saw401 := false, calls := [.detail],
        cp := checkpoint }

/-- Executable multiset-equality check: `a` is a permutation of `b`
exactly when they have the same length and every element of `a` occurs
equally often in both. -/
def isPermOf (a b : List Nat) : Bool :=
  a.length == b.length && a.all (fun x => a.count x == b.count x)

/-- A listing response: status code and the decoded page of SKU ids. -/
structure LResp where
  status : Nat
  ids : List Nat
deriving DecidableEq

/-- The environment of a whole run: the `safe_request` result for each
listing page, the per-SKU network, and the order in which the worker
pool's futures complete for a page (`as_completed` yields them in an
order chosen by the scheduler). -/
structure World where
  listing : Nat → Option LResp
  sku : Nat → SkuNet
  perm : Nat → List Nat → List Nat

/-- Which `checkpoint.save()` call site emitted a save: the `clear()` on
a fresh start, the every-N-completions save inside the page loop, or the
save right after `update_page(page + 1)`. -/
inductive SaveKind where
  | clearSave
  | periodic
  | pageEnd
deriving DecidableEq

/-- Why the listing loop stopped: falsy or absent listing response
(`if not response`), empty page (end of catalog), or a truthy non-200
status.  The `elif status == 401` arm of the source is dead code, since
a 401 response is falsy and is caught by `if not response` first. -/
inductive StopReason where
  | listFail
  | exhausted
  | listError
deriving DecidableEq

/-- Observable events of a run, in program order.  Worker completions
are recorded at the point the main loop consumes them from
`as_completed`; only main-thread state (`last_page`, dispatch order) is
reasoned about through them. -/
inductive Event where
  | dispatchPage (p : Nat) (ids : List Nat)
  | unitDone (p : Nat) (sku_id : Nat) (ok : Bool) (saw401 : Bool)
  | updatePage (p : Nat)
  | checkpointSave (k : SaveKind) (d : CheckpointData)
  | stopRun (p : Nat) (r : StopReason)
deriving DecidableEq

/-- main.py constant `CHECKPOINT_INTERVAL` (line 38). -/
def CHECKPOINT_INTERVAL : Nat := 10

/-- The `for future in as_completed(futures)` loop of one page
(lines 337-343), with the workers' effects serialized at completion
consumption: each completion runs `process_single_sku`, bumps the
global completion counter, and saves the checkpoint every
`CHECKPOINT_INTERVAL` completions.  Returns the checkpoint, the counter
and the events emitted. -/
def processPage (w : World) (p : Nat) :
    List Nat → CheckpointData → Nat → CheckpointData × Nat × List Event
  | [], cp, count => (cp, count, [])
  | sku_id :: rest, cp, count =>
    let r := process_single_sku (w.sku sku_id) sku_id cp
    let count1 := count + 1
    let saveEv :=
      if count1 % CHECKPOINT_INTERVAL = 0 then
        [Event.checkpointSave .periodic r.cp]
      else []
    let t := processPage w p rest r.cp count1
    (t.1, t.2.1, Event.unitDone p sku_id r.ok r.saw401 :: (saveEv ++ t.2.2))

/-- The `while True` page loop of `run_bulk_update` (lines 311-354),
bounded by fuel (running out of fuel ends the trace without an event).
Listing responses are branched exactly as in the source: `if not
response` catches `None` and every status ≥ 400 (including 401), then
200 with an empty page stops cleanly, 200 with ids dispatches the page
to the pool, waits for all completions, advances and saves the
checkpoint, and any other truthy status stops.  The completion order is
the scheduler's permutation of the page (an arbitrary order is coerced
back to the dispatch order if it is not a permutation). -/
def run_pages (w : World) : Nat → Nat → CheckpointData → Nat → List Event
  | 0, _, _, _ => []
  | fuel + 1, page, cp, count =>
    match w.listing page with
    | none => [Event.stopRun page .listFail]
    | some lr =>
      if !(respOk lr.status) then [Event.stopRun page .listFail]
      else if lr.status = 200 then
        if lr.ids.isEmpty then [Event.stopRun page .exhausted]
        else
          let order :=
            if isPermOf (w.perm page lr.ids) lr.ids then w.perm page lr.ids
            else lr.ids
          let t := processPage w page order cp count
          let cp2 := CheckpointManager.update_page t.1 (page + 1)
          Event.dispatchPage page lr.ids ::
            (t.2.2 ++ Event.updatePage (page + 1) ::
              Event.checkpointSave .pageEnd cp2 ::
                run_pages w fuel (page + 1) cp2 t.2.1)
      else [Event.stopRun page .listError]

/-- main.py `run_bulk_update` (lines 294-363): load (modelled as the
`cp0` argument), clear-and-save on a fresh start, then run the page loop
from `checkpoint.data["last_page"]` with the completion counter at 0.
The `except` arms for `KeyboardInterrupt` and unexpected faults are
outside the model (no exceptions arise in it). -/
def run_bulk_update (w : World) (fuel : Nat) (cp0 : CheckpointData)
    (resume : Bool) : List Event :=
  let cp := if resume then cp0 else { processed_skus := [], last_page := 1 }
  let pre :=
    if resume then ([] : List Event)
    else [Event.checkpointSave .clearSave { processed_skus := [], last_page := 1 }]
  pre ++ run_pages w fuel cp.last_page cp 0

/-- Proof instrumentation: a monotone phase for each event.  Within one
page p the loop emits dispatch (3p), completions and periodic saves
(3p + 1), then `update_page` and the page-end save (3p + 2); saves are
tagged with their call site so their phase is a function of the saved
`last_page`. -/
def evPhase : Event → Nat
  | .dispatchPage p _ => 3 * p
  | .unitDone p _ _ _ => 3 * p + 1
  | .updatePage p => 3 * p - 1
  | .checkpointSave .periodic d => 3 * d.last_page + 1
  | .checkpointSave .pageEnd d => 3 * d.last_page - 1
  | .checkpointSave .clearSave d => 3 * d.last_page - 1
  | .stopRun p _ => 3 * p

/-- The name chosen by `process_single_sku` when it is a usable (truthy
string) product name: the condition under which the source proceeds to
`process_sku_images` rather than logging `Ignored (no details)`. -/
def usable_name (net : SkuNet) : Option String :=
  match (get_sku_details net).1 with
  | some (.str s) => if pyTruthy (.str s) then some s else none
  | _ => none

/-- A SKU whose every remote call yields the no-response sentinel. -/
def netNone : SkuNet where
  detail := none
  files := none
  update := fun _ => none

/-- A SKU with one unlabeled image whose update succeeds. -/
def netOk : SkuNet where
  detail := some (200, [("ProductName", .str "Ab")])
  files := some (200, [[("Id", .int 1), ("Label", .str "")]])
  update := fun _ => some 200

/-- The single update attempt `netOk` gives rise to. -/
def updAb : UpdAttempt :=
  { idx := 1, img := [("Id", PyVal.int 1), ("Label", PyVal.str "")],
    alt := "ab_1", ok := true }

/-- A SKU with one unlabeled image whose update comes back 401. -/
def net401 : SkuNet where
  detail := some (200, [("ProductName", .str "Ab")])
  files := some (200, [[("Id", .int 1), ("Label", .str "")]])
  update := fun _ => some 401

/-- A run in which page 1 holds SKU 7 (whose image update observes a
401), page 2 holds SKU 8, and page 3 is empty. -/
def w401 : World where
  listing := fun p =>
    if p = 1 then some ⟨200, [7]⟩
    else if p = 2 then some ⟨200, [8]⟩
    else some ⟨200, []⟩
  sku := fun _ => net401
  perm := fun _ ids => ids

/-- A run with a single one-SKU page followed by the end of the
catalog; the SKU gets no detail response and is skipped as success. -/
def wOnePage : World where
  listing := fun p => if p = 1 then some ⟨200, [5]⟩ else some ⟨200, []⟩
  sku := fun _ => netNone
  perm := fun _ ids => ids

/-- A transport that times out on every attempt. -/
def oracleTimeoutAll : Nat → Attempt := fun _ => .timeout

/-- A transport whose first attempt is rate-limited with
`Retry-After: 7` and whose second attempt succeeds. -/
def oracle429 : Nat → Attempt := fun n =>
  match n with
  | 0 => .resp ⟨429, some 7⟩
  | _ => .resp ⟨200, none⟩

/-- C9: `CheckpointManager.load` never fails the caller — a missing
checkpoint file and an unparsable one both yield the empty initial
state `{processed_skus: [], last_page: 1}` rather than raising. -/
theorem checkpoint_load_defaults :
    CheckpointManager.load FileState.missing =
      { processed_skus := [], last_page := 1 } ∧
    CheckpointManager.load FileState.unparsable =
      { processed_skus := [], last_page := 1 } :=
  ⟨rfl, rfl⟩

theorem dictGet_dictSet_self (d : Dict) (k : String) (v : PyVal) :
    dictGet (dictSet d k v) k = some v := by
  induction d with
  | nil => simp [dictSet, dictGet]
  | cons hd tl ih =>
    obtain ⟨k', v'⟩ := hd
    by_cases h : k' = k
    · simp [dictSet, dictGet, h]
    · simp [dictSet, dictGet, h, ih]

theorem dictGet_dictSet_ne (d : Dict) (k : String) (v : PyVal) (k' : String)
    (h : k' ≠ k) : dictGet (dictSet d k v) k' = dictGet d k' := by
  have hks : ¬ k = k' := fun hh => h hh.symm
  induction d with
  | nil => simp [dictSet, dictGet, hks]
  | cons hd tl ih =>
    obtain ⟨k0, v0⟩ := hd
    by_cases h0 : k0 = k
    · have hne : ¬ k0 = k' := fun hh => h (hh ▸ h0)
      simp [dictSet, dictGet, h0, hne, hks]
    · by_cases h1 : k0 = k'
      · simp [dictSet, dictGet, h0, h1, hks, h]
      · simp [dictSet, dictGet, h0, h1, ih]

/-- C10: the payload sent by `update_image_alt` is the original image
record with only the label fields (`Label` and `Text`) replaced by the
new alt text; every other field is echoed back unchanged. -/
theorem update_payload_frame (original : Dict) (alt : String) :
    dictGet (update_payload original alt) "Label" = some (.str alt) ∧
    dictGet (update_payload original alt) "Text" = some (.str alt) ∧
    ∀ k, k ≠ "Label" → k ≠ "Text" →
      dictGet (update_payload original alt) k = dictGet original k := by
  refine ⟨?_, ?_, ?_⟩
  · rw [update_payload, dictGet_dictSet_ne _ _ _ _ (by decide)]
    exact dictGet_dictSet_self _ _ _
  · exact dictGet_dictSet_self _ _ _
  · intro k h1 h2
    rw [update_payload, dictGet_dictSet_ne _ _ _ _ h2, dictGet_dictSet_ne _ _ _ _ h1]

/-- C10 witness: the frame condition evaluated at a concrete image
record and the untouched key `Id`. -/
theorem update_payload_frame_witness :
    ("Id" ≠ "Label" ∧ "Id" ≠ "Text") ∧
    dictGet (update_payload [("Id", PyVal.int 1)] "x") "Id" =
      dictGet [("Id", PyVal.int 1)] "Id" :=
  ⟨⟨by decide, by decide⟩,
    (update_payload_frame [("Id", PyVal.int 1)] "x").2.2 "Id" (by decide) (by decide)⟩

/-- C2 counterexample: `slugify` preserves hyphens already present in
the input, so the result can begin with a hyphen, and a run of
non-alphanumeric non-whitespace characters is deleted rather than
collapsed to a single hyphen. -/
theorem slugify_hyphen_cex :
    slugify "-a" = "-a" ∧
    (slugify "-a").toList.head? = some '-' ∧
    slugify "a..b" = "ab" := by
  refine ⟨by decide, by decide, by decide⟩

/-- C2 amended: `slugify` folds the input to ASCII, lowercases it,
trims surrounding whitespace, turns each whitespace run into a single
hyphen and deletes every remaining character outside `[a-z0-9-]`; the
empty string maps to itself and the result consists only of lowercase
letters, digits and hyphens — but hyphens present in the input survive
(so the result can begin or end with one) and non-whitespace
non-alphanumeric runs are deleted, not hyphenated. -/
theorem slugify_charset_and_examples :
    slugify "" = "" ∧
    (∀ s : String, (slugify s).toList.all isSlugChar = true) ∧
    slugify "Paracetamol 500mg Comprimidos" = "paracetamol-500mg-comprimidos" ∧
    slugify "Óleo Essencial" = "oleo-essencial" := by
  refine ⟨rfl, ?_, by decide, by decide⟩
  intro s
  rw [slugify]
  by_cases h : s = ""
  · simp [h]
  · simp only [h, if_false]
    rw [List.all_eq_true]
    intro c hc
    exact List.of_mem_filter hc

/-- C4: `safe_request` never raises — for every pattern of transport
outcomes its result is either the `None` sentinel or one of the
responses the transport produced; a per-attempt timeout or connection
failure in particular yields `None` instead of an exception. -/
theorem safe_request_never_raises (oracle : Nat → Attempt) (fuel : Nat) :
    ((safe_request oracle fuel).2 = none ∨
      ∃ k r, oracle k = Attempt.resp r ∧ (safe_request oracle fuel).2 = some r)
    ∧ (oracle 0 = Attempt.timeout → (safe_request oracle fuel).2 = none)
    ∧ (oracle 0 = Attempt.connError → (safe_request oracle fuel).2 = none) := by
  induction fuel generalizing oracle with
  | zero => exact ⟨Or.inl rfl, fun _ => rfl, fun _ => rfl⟩
  | succ n ih =>
    refine ⟨?_, ?_, ?_⟩
    · cases h : oracle 0 with
      | timeout => simp [safe_request, h]
      | connError => simp [safe_request, h]
      | otherError => simp [safe_request, h]
      | resp r =>
        by_cases h429 : r.status = 429
        · have := (ih (fun k => oracle (k + 1))).1
          rcases this with hnone | ⟨k, r', hk, hr⟩
          · left
            simp [safe_request, h, h429, hnone]
          · right
            exact ⟨k + 1, r', hk, by simp [safe_request, h, h429, hr]⟩
        · right
          exact ⟨0, r, h, by simp [safe_request, h, h429]⟩
    · intro h
      simp [safe_request, h]
    · intro h
      simp [safe_request, h]

/-- C4 witness: an always-timing-out transport makes `safe_request`
return the sentinel. -/
theorem safe_request_never_raises_witness :
    oracleTimeoutAll 0 = Attempt.timeout ∧
    (safe_request oracleTimeoutAll 3).2 = none :=
  ⟨rfl, (safe_request_never_raises oracleTimeoutAll 3).2.1 rfl⟩

/-- C6: a 429 response makes `safe_request` sleep for the
`Retry-After` duration (60 seconds when the header is absent) and
re-issue the identical request recursively, and a 429 response is never
what the function returns to its caller. -/
theorem safe_request_429_retry (oracle : Nat → Attempt) (fuel : Nat) :
    (∀ r, (safe_request oracle fuel).2 = some r → r.status ≠ 429)
    ∧ (∀ r, oracle 0 = Attempt.resp r → r.status = 429 →
        safe_request oracle (fuel + 1) =
          (r.retryAfter.getD 60 :: (safe_request (fun k => oracle (k + 1)) fuel).1,
           (safe_request (fun k => oracle (k + 1)) fuel).2)) := by
  constructor
  · induction fuel generalizing oracle with
    | zero => intro r h; simp [safe_request] at h
    | succ n ih =>
      intro r h
      cases ho : oracle 0 with
      | timeout => simp [safe_request, ho] at h
      | connError => simp [safe_request, ho] at h
      | otherError => simp [safe_request, ho] at h
      | resp r0 =>
        by_cases h429 : r0.status = 429
        · have h' : (safe_request oracle (n + 1)).2 =
              (safe_request (fun k => oracle (k + 1)) n).2 := by
            simp [safe_request, ho, h429]
          rw [h'] at h
          exact ih (fun k => oracle (k + 1)) r h
        · have h' : (safe_request oracle (n + 1)).2 = some r0 := by
            simp [safe_request, ho, h429]
          rw [h'] at h
          injection h with h
          subst h
          exact h429
  · intro r ho h429
    simp [safe_request, ho, h429]

/-- C6 witness: a first-attempt 429 with `Retry-After: 7` produces a
7-second sleep and the second attempt's 200 response. -/
theorem safe_request_429_retry_witness :
    oracle429 0 = Attempt.resp ⟨429, some 7⟩ ∧
    (⟨429, some 7⟩ : HResp).status = 429 ∧
    safe_request oracle429 2 = ([7], some ⟨200, none⟩) := by
  refine ⟨rfl, rfl, ?_⟩
  have h := (safe_request_429_retry oracle429 1).2 ⟨429, some 7⟩ rfl rfl
  rw [h]
  rfl

/-- C8: a SKU already recorded as processed in the checkpoint is
returned as an immediate success with zero remote calls and an
unchanged checkpoint. -/
theorem processed_sku_skipped (net : SkuNet) (sku_id : Nat)
    (cp : CheckpointData) (h : CheckpointManager.is_processed cp sku_id = true) :
    process_single_sku net sku_id cp =
      { ok := true, marked := false, saw401 := false, calls := [], cp := cp } := by
  rw [process_single_sku, h]
  rfl

/-- C8 witness: SKU 42, already in the checkpoint, is skipped with no
remote calls even against a dead network. -/
theorem processed_sku_skipped_witness :
    CheckpointManager.is_processed ⟨[42], 1⟩ 42 = true ∧
    process_single_sku netNone 42 ⟨[42], 1⟩ =
      { ok := true, marked := false, saw401 := false, calls := [],
        cp := ⟨[42], 1⟩ } :=
  ⟨by decide, processed_sku_skipped netNone 42 ⟨[42], 1⟩ (by decide)⟩

theorem imagesLoop_ok_all (net : SkuNet) (base : String) :
    ∀ (imgs : List Dict) (idx : Nat),
      (imagesLoop net base idx imgs).1 = true →
      ∀ u ∈ (imagesLoop net base idx imgs).2.2.1, u.ok = true := by
  intro imgs
  induction imgs with
  | nil =>
    intro idx h u hu
    simp [imagesLoop] at hu
  | cons img rest ih =>
    intro idx h u hu
    by_cases hd : labelDiffers (dictGetD img "Label" (.str ""))
        (base ++ "_" ++ toString idx) = true
    · simp only [imagesLoop, hd, if_true, if_pos] at h hu
      simp only [Bool.and_eq_true] at h
      rcases List.mem_cons.mp hu with h1 | h1
      · subst h1
        exact h.1
      · exact ih (idx + 1) h.2 u h1
    · simp only [imagesLoop, hd, if_false, if_neg] at h hu
      exact ih (idx + 1) h u hu

theorem imagesLoop_mem (net : SkuNet) (base : String) :
    ∀ (imgs : List Dict) (idx : Nat) (u : UpdAttempt),
      u ∈ (imagesLoop net base idx imgs).2.2.1 →
      ∃ j, j < imgs.length ∧ u.idx = idx + j ∧ imgs[j]? = some u.img ∧
        u.alt = base ++ "_" ++ toString u.idx ∧
        labelDiffers (dictGetD u.img "Label" (.str "")) u.alt = true := by
  intro imgs
  induction imgs with
  | nil =>
    intro idx u hu
    simp [imagesLoop] at hu
  | cons img rest ih =>
    intro idx u hu
    by_cases hd : labelDiffers (dictGetD img "Label" (.str ""))
        (base ++ "_" ++ toString idx) = true
    · simp only [imagesLoop, hd, if_true, if_pos] at hu
      rcases List.mem_cons.mp hu with h1 | h1
      · subst h1
        exact ⟨0, by simp, by simp, by simp, rfl, by simpa using hd⟩
      · obtain ⟨j, hj, hidx, hget, halt, hlab⟩ := ih (idx + 1) u h1
        refine ⟨j + 1, by simpa using hj, by omega, by simpa using hget, halt, hlab⟩
    · simp only [imagesLoop, hd, if_false, if_neg] at hu
      obtain ⟨j, hj, hidx, hget, halt, hlab⟩ := ih (idx + 1) u hu
      refine ⟨j + 1, by simpa using hj, by omega, by simpa using hget, halt, hlab⟩

theorem process_sku_images_ok_all (net : SkuNet) (sku_id : Nat) (name : String) :
    (process_sku_images net sku_id name).ok = true →
    ∀ u ∈ (process_sku_images net sku_id name).updates, u.ok = true := by
  intro h u hu
  rcases hf : net.files with _ | ⟨st, images⟩ <;>
    simp only [process_sku_images, hf] at h hu
  · simp at hu
  · split_ifs at h hu <;>
      first
        | exact imagesLoop_ok_all net (slugify name) images 1 h u hu
        | exact absurd hu (by simp)

/-- C7: every image update `process_sku_images` submits targets the
1-based position of that image in the fetched list with alt text
`slug_position`, and is only submitted when the current label differs
from that target (an already-correct image is never re-submitted). -/
theorem image_target_labels (net : SkuNet) (sku_id : Nat) (name : String) :
    ∀ u ∈ (process_sku_images net sku_id name).updates,
      u.alt = slugify name ++ "_" ++ toString u.idx ∧
      labelDiffers (dictGetD u.img "Label" (.str "")) u.alt = true ∧
      ∃ imgs, (process_sku_images net sku_id name).fetched = some imgs ∧
        1 ≤ u.idx ∧ u.idx - 1 < imgs.length ∧ imgs[u.idx - 1]? = some u.img := by
  intro u hu
  rcases hf : net.files with _ | ⟨st, images⟩ <;>
    simp only [process_sku_images, hf] at hu ⊢
  · simp at hu
  · split_ifs at hu ⊢ with h1 h2 h3 h4 h5
    · simp at hu
    · simp at hu
    · simp at hu
    · obtain ⟨j, hj, hidx, hget, halt, hlab⟩ :=
        imagesLoop_mem net (slugify name) images 1 u hu
      refine ⟨halt, hlab, images, rfl, by omega, ?_, ?_⟩
      · omega
      · have : u.idx - 1 = j := by omega
        rw [this]
        exact hget
    · simp at hu
    · simp at hu

/-- C7 witness: the concrete unlabeled image of `netOk` is submitted at
position 1 with alt text `slugify "Ab" ++ "_1"`. -/
theorem image_target_labels_witness :
    updAb ∈ (process_sku_images netOk 7 "Ab").updates ∧
    updAb.alt = slugify "Ab" ++ "_" ++ toString updAb.idx := by
  have hm : updAb ∈ (process_sku_images netOk 7 "Ab").updates := by
    rw [show (process_sku_images netOk 7 "Ab").updates = [updAb] from rfl]
    exact List.mem_cons_self _ _
  exact ⟨hm, (image_target_labels netOk 7 "Ab" updAb hm).1⟩

/-- C5: with a not-yet-processed SKU, `process_single_sku` calls
`mark_processed` exactly when the detail fetch produced a usable name
and `process_sku_images` returned success — and that success implies
every image update it attempted succeeded. -/
theorem mark_processed_iff_images_success (net : SkuNet) (sku_id : Nat)
    (cp : CheckpointData) (h : CheckpointManager.is_processed cp sku_id = false) :
    ((process_single_sku net sku_id cp).marked = true ↔
      ∃ s, usable_name net = some s ∧ (process_sku_images net sku_id s).ok = true)
    ∧ ∀ (name : String) (u : UpdAttempt),
        u ∈ (process_sku_images net sku_id name).updates →
        (process_sku_images net sku_id name).ok = true → u.ok = true := by
  constructor
  · rcases hd : (get_sku_details net).1 with _ | v
    · simp [process_single_sku, usable_name, h, hd]
    · cases v with
      | str s =>
        by_cases hs : pyTruthy (PyVal.str s) = true
        · by_cases hok : (process_sku_images net sku_id s).ok = true
          · simp [process_single_sku, usable_name, h, hd, hs, hok]
          · have hok' : (process_sku_images net sku_id s).ok = false := by
              simpa using hok
            constructor
            · intro hm
              have hmf : (process_single_sku net sku_id cp).marked = false := by
                simp [process_single_sku, h, hd, hs, hok']
              rw [hmf] at hm
              exact absurd hm (by simp)
            · rintro ⟨s', hs', hok2⟩
              simp only [usable_name, hd] at hs'
              rw [if_pos hs] at hs'
              injection hs' with he
              subst he
              exact absurd hok2 hok
        · simp [process_single_sku, usable_name, h, hd, hs]
      | null => simp [process_single_sku, usable_name, h, hd]
      | bool b => simp [process_single_sku, usable_name, h, hd]
      | int n => simp [process_single_sku, usable_name, h, hd]
      | list xs => simp [process_single_sku, usable_name, h, hd]
      | dict kvs => simp [process_single_sku, usable_name, h, hd]
  · intro name u hu hok
    exact process_sku_images_ok_all net sku_id name hok u hu

/-- C5 witness: SKU 7 against `netOk` has a usable name and all its
updates succeed, and is marked accordingly. -/
theorem mark_processed_iff_images_success_witness :
    CheckpointManager.is_processed ⟨[], 1⟩ 7 = false ∧
    ((process_single_sku netOk 7 ⟨[], 1⟩).marked = true ↔
      ∃ s, usable_name netOk = some s ∧
        (process_sku_images netOk 7 s).ok = true) :=
  ⟨by decide, (mark_processed_iff_images_success netOk 7 ⟨[], 1⟩ (by decide)).1⟩

theorem run_pages_succ_200 (w : World) (fuel page count : Nat)
    (cp : CheckpointData) (ids : List Nat)
    (h1 : w.listing page = some ⟨200, ids⟩) (h2 : ids.isEmpty = false) :
    run_pages w (fuel + 1) page cp count =
      Event.dispatchPage page ids ::
        ((processPage w page
            (if isPermOf (w.perm page ids) ids then w.perm page ids else ids)
            cp count).2.2 ++
          Event.updatePage (page + 1) ::
            Event.checkpointSave .pageEnd
              (CheckpointManager.update_page
                (processPage w page
                  (if isPermOf (w.perm page ids) ids then w.perm page ids
                    else ids) cp count).1 (page + 1)) ::
              run_pages w fuel (page + 1)
                (CheckpointManager.update_page
                  (processPage w page
                    (if isPermOf (w.perm page ids) ids then w.perm page ids
                      else ids) cp count).1 (page + 1))
                (processPage w page
                  (if isPermOf (w.perm page ids) ids then w.perm page ids
                    else ids) cp count).2.1) := by
  simp only [run_pages, h1]
  norm_num [respOk, h2]

/-- C1 amended: a 401 observed by a unit's image update is logged and
makes that unit fail, but `run_bulk_update` never inspects worker
results, so it keeps dispatching pages as long as the listing requests
return 200 with a nonempty page; only a listing-level failure (no
response or any status ≥ 400, including 401), an empty page, or another
non-200 status stops dispatching.  In particular a run that observes a
unit-level 401 on one page still dispatches the next page. -/
theorem run_continues_after_unit_auth_failure (w : World) (fuel : Nat)
    (cp0 : CheckpointData) (ids ids' : List Nat)
    (h1 : w.listing cp0.last_page = some ⟨200, ids⟩) (h2 : ids.isEmpty = false)
    (h3 : w.listing (cp0.last_page + 1) = some ⟨200, ids'⟩)
    (h4 : ids'.isEmpty = false)
    (h5 : ∃ sid ok, Event.unitDone cp0.last_page sid ok true ∈
        run_bulk_update w (fuel + 2) cp0 true) :
    Event.dispatchPage (cp0.last_page + 1) ids' ∈
      run_bulk_update w (fuel + 2) cp0 true := by
  show Event.dispatchPage (cp0.last_page + 1) ids' ∈
    run_pages w (fuel + 1 + 1) cp0.last_page cp0 0
  rw [run_pages_succ_200 w (fuel + 1) cp0.last_page 0 cp0 ids h1 h2]
  rw [run_pages_succ_200 w fuel (cp0.last_page + 1) _ _ ids' h3 h4]
  refine List.mem_cons_of_mem _ (List.mem_append_right _ ?_)
  refine List.mem_cons_of_mem _ (List.mem_cons_of_mem _ ?_)
  exact List.mem_cons_self _ _

/-- C1 counterexample: in the concrete run `w401`, the worker that
processes SKU 7 on page 1 observes a 401 on its image update (the
`unitDone` event carries `saw401 = true`), and yet `run_bulk_update`
still dispatches page 2 — the run does not stop dispatching after a
unit-level authentication failure, contradicting the claim. -/
theorem unit_auth_failure_does_not_stop_dispatch_cex :
    Event.unitDone 1 7 false true ∈ run_bulk_update w401 3 ⟨[], 1⟩ true ∧
    Event.dispatchPage 2 [8] ∈ run_bulk_update w401 3 ⟨[], 1⟩ true := by
  constructor
  · decide
  · decide

/-- C1 amended witness: the amended theorem applied to the concrete
401-observing run `w401`. -/
theorem run_continues_after_unit_auth_failure_witness :
    (∃ sid ok, Event.unitDone 1 sid ok true ∈ run_bulk_update w401 3 ⟨[], 1⟩ true) ∧
    Event.dispatchPage 2 [8] ∈ run_bulk_update w401 3 ⟨[], 1⟩ true :=
  ⟨⟨7, false, by decide⟩,
    run_continues_after_unit_auth_failure w401 1 ⟨[], 1⟩ [7] [8] (by decide)
      (by decide) (by decide) (by decide) ⟨7, false, by decide⟩⟩

theorem mark_processed_lp (cp : CheckpointData) (sid : Nat) :
    (CheckpointManager.mark_processed cp sid).last_page = cp.last_page := by
  unfold CheckpointManager.mark_processed
  split <;> rfl

theorem process_single_sku_lp (net : SkuNet) (sid : Nat) (cp : CheckpointData) :
    (process_single_sku net sid cp).cp.last_page = cp.last_page := by
  unfold process_single_sku
  split
  · rfl
  · cases hd : (get_sku_details net).1 with
    | none => simp [hd]
    | some v =>
      cases v with
      | str s =>
        simp only [hd]
        split_ifs <;> first | rfl | simp [mark_processed_lp]
      | null => simp [hd]
      | bool b => simp [hd]
      | int n => simp [hd]
      | list xs => simp [hd]
      | dict kvs => simp [hd]

theorem processPage_lp (w : World) (p : Nat) :
    ∀ (order : List Nat) (cp : CheckpointData) (count : Nat),
      (processPage w p order cp count).1.last_page = cp.last_page := by
  intro order
  induction order with
  | nil => intro cp count; rfl
  | cons sid rest ih =>
    intro cp count
    simp only [processPage]
    rw [ih, process_single_sku_lp]

theorem processPage_phase (w : World) (p : Nat) :
    ∀ (order : List Nat) (cp : CheckpointData) (count : Nat),
      cp.last_page = p →
      ∀ e ∈ (processPage w p order cp count).2.2, evPhase e = 3 * p + 1 := by
  intro order
  induction order with
  | nil =>
    intro cp count hlp e he
    simp [processPage] at he
  | cons sid rest ih =>
    intro cp count hlp e he
    simp only [processPage] at he
    rcases List.mem_cons.mp he with h1 | h1
    · subst h1
      simp [evPhase]
    · rcases List.mem_append.mp h1 with h2 | h2
      · by_cases hc : (count + 1) % CHECKPOINT_INTERVAL = 0
        · rw [if_pos hc] at h2
          rcases List.mem_singleton.mp h2 with h3
          subst h3
          simp only [evPhase, process_single_sku_lp, hlp]
        · rw [if_neg hc] at h2
          simp at h2
      · exact ih (process_single_sku (w.sku sid) sid cp).cp (count + 1)
          (by rw [process_single_sku_lp, hlp]) e h2

theorem run_pages_phase_ge (w : World) :
    ∀ (fuel page : Nat) (cp : CheckpointData) (count : Nat),
      cp.last_page = page →
      ∀ e ∈ run_pages w fuel page cp count, 3 * page ≤ evPhase e := by
  intro fuel
  induction fuel with
  | zero =>
    intro page cp count hlp e he
    simp [run_pages] at he
  | succ n ih =>
    intro page cp count hlp e he
    rcases hl : w.listing page with _ | lr
    · simp only [run_pages, hl] at he
      rcases List.mem_singleton.mp he with h
      subst h
      simp [evPhase]
    · simp only [run_pages, hl] at he
      by_cases hr : (!respOk lr.status) = true
      · rw [if_pos hr] at he
        rcases List.mem_singleton.mp he with h
        subst h
        simp [evPhase]
      · rw [if_neg hr] at he
        by_cases h200 : lr.status = 200
        · rw [if_pos h200] at he
          by_cases hemp : lr.ids.isEmpty = true
          · rw [if_pos hemp] at he
            rcases List.mem_singleton.mp he with h
            subst h
            simp [evPhase]
          · rw [if_neg hemp] at he
            rcases List.mem_cons.mp he with h1 | h1
            · subst h1
              simp [evPhase]
            · rcases List.mem_append.mp h1 with h2 | h2
              · have := processPage_phase w page _ cp count hlp e h2
                omega
              · rcases List.mem_cons.mp h2 with h3 | h3
                · subst h3
                  simp only [evPhase]
                  omega
                · rcases List.mem_cons.mp h3 with h4 | h4
                  · subst h4
                    simp only [evPhase, CheckpointManager.update_page]
                    omega
                  · have hT := ih (page + 1) _ _ rfl e h4
                    omega
        · rw [if_neg h200] at he
          rcases List.mem_singleton.mp he with h
          subst h
          simp [evPhase]

theorem sorted_const_phase (c : Nat) :
    ∀ l : List Event, (∀ e ∈ l, evPhase e = c) →
      (l.map evPhase).Sorted (· ≤ ·) := by
  intro l
  induction l with
  | nil => intro _; simp
  | cons x xs ih =>
    intro h
    rw [List.map_cons, List.sorted_cons]
    constructor
    · intro b hb
      rcases List.mem_map.mp hb with ⟨e, he, rfl⟩
      rw [h x (List.mem_cons_self _ _), h e (List.mem_cons_of_mem _ he)]
    · exact ih fun e he => h e (List.mem_cons_of_mem _ he)

theorem run_pages_sorted (w : World) :
    ∀ (fuel page : Nat) (cp : CheckpointData) (count : Nat),
      cp.last_page = page →
      ((run_pages w fuel page cp count).map evPhase).Sorted (· ≤ ·) := by
  intro fuel
  induction fuel with
  | zero =>
    intro page cp count hlp
    simp [run_pages]
  | succ n ih =>
    intro page cp count hlp
    rcases hl : w.listing page with _ | lr
    · simp [run_pages, hl]
    · simp only [run_pages, hl]
      by_cases hr : (!respOk lr.status) = true
      · rw [if_pos hr]
        simp
      · rw [if_neg hr]
        by_cases h200 : lr.status = 200
        · rw [if_pos h200]
          by_cases hemp : lr.ids.isEmpty = true
          · rw [if_pos hemp]
            simp
          · rw [if_neg hemp]
            have hB := processPage_phase w page
              (if isPermOf (w.perm page lr.ids) lr.ids then w.perm page lr.ids
                else lr.ids) cp count hlp
            have hT := run_pages_phase_ge w n (page + 1)
              (CheckpointManager.update_page
                (processPage w page
                  (if isPermOf (w.perm page lr.ids) lr.ids then w.perm page lr.ids
                    else lr.ids) cp count).1 (page + 1))
              (processPage w page
                (if isPermOf (w.perm page lr.ids) lr.ids then w.perm page lr.ids
                  else lr.ids) cp count).2.1 rfl
            have hTs := ih (page + 1)
              (CheckpointManager.update_page
                (processPage w page
                  (if isPermOf (w.perm page lr.ids) lr.ids then w.perm page lr.ids
                    else lr.ids) cp count).1 (page + 1))
              (processPage w page
                (if isPermOf (w.perm page lr.ids) lr.ids then w.perm page lr.ids
                  else lr.ids) cp count).2.1 rfl
            rw [List.map_cons, List.sorted_cons]
            constructor
            · intro b hb
              rw [List.map_append, List.map_cons, List.map_cons] at hb
              rcases List.mem_append.mp hb with h | h
              · rcases List.mem_map.mp h with ⟨e, he, rfl⟩
                rw [hB e he]
                simp [evPhase]
              · rcases List.mem_cons.mp h with h | h
                · subst h
                  simp [evPhase]
                  omega
                · rcases List.mem_cons.mp h with h | h
                  · subst h
                    simp only [evPhase, CheckpointManager.update_page]
                    omega
                  · rcases List.mem_map.mp h with ⟨e, he, rfl⟩
                    refine le_trans ?_ (hT e he)
                    simp only [evPhase]
                    omega
            · rw [List.map_append]
              refine List.pairwise_append.mpr
                ⟨sorted_const_phase (3 * page + 1) _ hB, ?_, ?_⟩
              · rw [List.map_cons, List.pairwise_cons]
                constructor
                · intro b hb
                  rcases List.mem_cons.mp hb with h | h
                  · subst h
                    simp [evPhase, CheckpointManager.update_page]
                  · rcases List.mem_map.mp h with ⟨e, he, rfl⟩
                    refine le_trans ?_ (hT e he)
                    simp only [evPhase]
                    omega
                · rw [List.map_cons, List.pairwise_cons]
                  refine ⟨?_, hTs⟩
                  intro b hb
                  rcases List.mem_map.mp hb with ⟨e, he, rfl⟩
                  refine le_trans ?_ (hT e he)
                  simp only [evPhase, CheckpointManager.update_page]
                  omega
              · intro x hx y hy
                rcases List.mem_map.mp hx with ⟨e, he, rfl⟩
                rw [hB e he]
                rcases List.mem_cons.mp hy with h | h
                · subst h
                  simp only [evPhase]
                  omega
                · rcases List.mem_cons.mp h with h | h
                  · subst h
                    simp only [evPhase, CheckpointManager.update_page]
                    omega
                  · rcases List.mem_map.mp h with ⟨e', he', rfl⟩
                    have := hT e' he'
                    omega
        · rw [if_neg h200]
          simp

theorem run_bulk_sorted (w : World) (fuel : Nat) (cp0 : CheckpointData)
    (resume : Bool) :
    ((run_bulk_update w fuel cp0 resume).map evPhase).Sorted (· ≤ ·) := by
  cases resume with
  | true =>
    show ((([] : List Event) ++
      run_pages w fuel cp0.last_page cp0 0).map evPhase).Sorted (· ≤ ·)
    rw [List.nil_append]
    exact run_pages_sorted w fuel cp0.last_page cp0 0 rfl
  | false =>
    show ((Event.checkpointSave .clearSave { processed_skus := [], last_page := 1 } ::
      run_pages w fuel 1 { processed_skus := [], last_page := 1 } 0).map
        evPhase).Sorted (· ≤ ·)
    rw [List.map_cons, List.sorted_cons]
    constructor
    · intro b hb
      rcases List.mem_map.mp hb with ⟨e, he, rfl⟩
      have := run_pages_phase_ge w fuel 1
        { processed_skus := [], last_page := 1 } 0 rfl e he
      refine le_trans ?_ this
      simp [evPhase]
    · exact run_pages_sorted w fuel 1 { processed_skus := [], last_page := 1 } 0 rfl

theorem sorted_split_le (l₁ l₂ : List Event) (x : Event)
    (h : ((l₁ ++ x :: l₂).map evPhase).Sorted (· ≤ ·)) :
    (∀ z ∈ l₁, evPhase z ≤ evPhase x) ∧ (∀ y ∈ l₂, evPhase x ≤ evPhase y) := by
  rw [List.map_append, List.map_cons] at h
  obtain ⟨h1, h2, h3⟩ := List.pairwise_append.mp h
  rw [List.pairwise_cons] at h2
  constructor
  · intro z hz
    exact h3 _ (List.mem_map_of_mem _ hz) _ (List.mem_cons_self _ _)
  · intro y hy
    exact h2.1 _ (List.mem_map_of_mem _ hy)

/-- C3: in any run, a checkpoint save carrying `last_page = p + 1`
happens only after every completion of page p (no `unitDone` event of
page p follows it); a save that falls between the dispatch of page p and
one of its completions carries `last_page = p`; and a periodic
(every-N-completions) save between the dispatch of page p and the
`update_page (p + 1)` call carries `last_page = p`, never `p + 1`. -/
theorem checkpoint_page_advance_ordering (w : World) (fuel : Nat)
    (cp0 : CheckpointData) (resume : Bool) (l₁ l₂ : List Event)
    (k : SaveKind) (d : CheckpointData)
    (hsplit : run_bulk_update w fuel cp0 resume =
      l₁ ++ Event.checkpointSave k d :: l₂) (p : Nat) :
    (d.last_page = p + 1 → ∀ sid ok s, Event.unitDone p sid ok s ∉ l₂)
    ∧ (∀ ids, Event.dispatchPage p ids ∈ l₁ →
        ∀ sid ok s, Event.unitDone p sid ok s ∈ l₂ → d.last_page = p)
    ∧ (k = SaveKind.periodic → ∀ ids, Event.dispatchPage p ids ∈ l₁ →
        Event.updatePage (p + 1) ∈ l₂ → d.last_page = p) := by
  have hs := run_bulk_sorted w fuel cp0 resume
  rw [hsplit] at hs
  have hsp := sorted_split_le l₁ l₂ _ hs
  refine ⟨?_, ?_, ?_⟩
  · intro hd sid ok s hmem
    have h2 := hsp.2 _ hmem
    cases k <;> simp only [evPhase, hd] at h2 <;> omega
  · intro ids hdis sid ok s hmem
    have h1 := hsp.1 _ hdis
    have h2 := hsp.2 _ hmem
    cases k <;> simp only [evPhase] at h1 h2 <;> omega
  · intro hk ids hdis hup
    subst hk
    have h1 := hsp.1 _ hdis
    have h2 := hsp.2 _ hup
    simp only [evPhase] at h1 h2
    omega

/-- C3 witness: in the concrete one-page run `wOnePage`, the page-end
save carries `last_page = 2` and indeed no completion of page 1 follows
it. -/
theorem checkpoint_page_advance_ordering_witness :
    (run_bulk_update wOnePage 2 ⟨[], 1⟩ true =
      [Event.dispatchPage 1 [5], Event.unitDone 1 5 true false,
       Event.updatePage 2,
       Event.checkpointSave .pageEnd ⟨[], 2⟩,
       Event.stopRun 2 .exhausted]) ∧
    Event.unitDone 1 5 true false ∉ [Event.stopRun 2 StopReason.exhausted] := by
  constructor
  · decide
  · exact (checkpoint_page_advance_ordering wOnePage 2 ⟨[], 1⟩ true
      [Event.dispatchPage 1 [5], Event.unitDone 1 5 true false, Event.updatePage 2]
      [Event.stopRun 2 .exhausted] .pageEnd ⟨[], 2⟩ (by decide) 1).1 rfl 5 true false
